import Mathlib

/-!
Verification of the directory-listing middleware in `filemanager.go`
(package `filemanager`): the `Listing`/`FileInfo` data model, listing
assembly (`directoryListing`), breadcrumb construction
(`Listing.BreadcrumbMap`), query validation and limiting, scope routing
(`FileManager.ServeHTTP`), and content negotiation (`ServeListing`).
Go values are embedded shallowly: strings as `String`, Go `int`/`int64`
as `Int`, byte values as `Nat`, and fallible collaborators as `Except`.
-/

namespace FileManagerSpec

/-- A raw directory entry as returned by `Readdir`: the `os.FileInfo`
fields the code reads (`Name`, `Size`, `IsDir`, `ModTime`, `Mode`).
`modTime` is an opaque UTC timestamp, `mode` the permission bits. -/
structure RawFileInfo where
  name : String
  size : Int
  isDir : Bool
  modTime : Int
  mode : Nat
deriving Repr, DecidableEq

/-- `FileInfo` (filemanager.go:109-116): the per-entry snapshot stored in a
`Listing`. -/
structure FileInfo where
  isDir : Bool
  name : String
  size : Int
  url : String
  modTime : Int
  mode : Nat
deriving Repr, DecidableEq

/-- `Listing` (filemanager.go:46-78): the context used to fill out a
template.  The `httpserver.Context` back-reference and `User` variables
carry no logic and are omitted.  `itemsLimitedTo` is `≠ 0` iff `items`
have been limited to that many elements. -/
structure Listing where
  name : String
  path : String
  canGoUp : Bool
  items : List FileInfo
  numDirs : Nat
  numFiles : Nat
  sort : String
  order : String
  itemsLimitedTo : Int
deriving Repr, DecidableEq

/-! ### Go `net/url` path escaping

`directoryListing` builds each item's URL as `url.URL{Path: "./" + name}`
and renders it with `URL.String()`.  For a URL with only `Path` set this
is `escape(path, encodePath)`, preceded by `"./"` when the first path
segment contains a colon.  We model Go's byte-level escaping over the
UTF-8 bytes of the path. -/

/-- Go `url.shouldEscape(c, encodePath)`: alphanumerics, the marks
`- _ . ~` and the reserved characters `$ & + , / : ; = @` stay unescaped;
everything else (including `?`, space and all bytes ≥ 0x80) is escaped. -/
def shouldEscapePath (c : Nat) : Bool :=
  if (97 ≤ c && c ≤ 122) || (65 ≤ c && c ≤ 90) || (48 ≤ c && c ≤ 57) then
    false
  else if c == 45 || c == 95 || c == 46 || c == 126 then
    false
  else if c == 36 || c == 38 || c == 43 || c == 44 || c == 47 || c == 58 ||
      c == 59 || c == 61 || c == 64 then
    false
  else
    true

/-- Upper-case hexadecimal digit, as in Go's `upperhex` table. -/
def upperHexDigit (n : Nat) : Char :=
  if n < 10 then Char.ofNat (48 + n) else Char.ofNat (55 + n)

/-- One byte of Go `url.escape(s, encodePath)`: `%XX` when escaped,
the byte itself (always ASCII when unescaped) otherwise. -/
def escapeByte (c : Nat) : List Char :=
  if shouldEscapePath c then ['%', upperHexDigit (c / 16), upperHexDigit (c % 16)]
  else [Char.ofNat c]

/-- Go `url.escape(s, encodePath)` at the byte-list level. -/
def escapeBytesChars : List Nat → List Char
  | [] => []
  | b :: rest => escapeByte b ++ escapeBytesChars rest

/-- The UTF-8 bytes of a string (Go strings are byte strings; `escape`
walks them byte by byte). -/
def utf8Bytes (s : String) : List Nat :=
  (s.data.map (fun c => (String.utf8EncodeChar c).map UInt8.toNat)).flatten

/-- Go `url.escape(s, encodePath)`. -/
def escapePath (s : String) : String :=
  String.mk (escapeBytesChars (utf8Bytes s))

/-- The check in Go `url.URL.String()` for a relative path whose first
segment contains a colon: `strings.IndexByte(path, ':') = i ≥ 0` and
`path[:i]` contains no `/`. -/
def colonFirstSegment : List Char → Bool
  | [] => false
  | c :: rest =>
    if c = ':' then true
    else if c = '/' then false
    else colonFirstSegment rest

/-- Go `url.URL{Path: p}.String()`: the escaped path, prefixed by `"./"`
when its first segment contains a colon (RFC 3986 §4.2).  Scheme, host,
query and fragment are empty for the URLs the code builds. -/
def goURLStringPathOnly (p : String) : String :=
  let esc := escapeBytesChars (utf8Bytes p)
  String.mk (if colonFirstSegment esc then '.' :: '/' :: esc else esc)

/-! ### Listing assembly (`directoryListing`, filemanager.go:129-173) -/

/-- Go `path.Base`: strip trailing slashes, take the part after the last
slash; `""` gives `"."`, all-slashes gives `"/"`. -/
def pathBase (p : String) : String :=
  if p = "" then "."
  else
    let stripped := p.data.reverse.dropWhile (fun c => c = '/')
    if stripped = [] then "/"
    else String.mk (stripped.takeWhile (fun c => c ≠ '/')).reverse

/-- The `FileInfo` built for one raw entry in the loop of
`directoryListing` (filemanager.go:136-162): `Name`, `Size`, `ModTime`
and `Mode` are copied from the entry (the stored `Name` never gains a
trailing slash), while the URL is `url.URL{Path: "./" + name}.String()`
where `name` has a `/` appended for directories. -/
def fileInfoOf (f : RawFileInfo) : FileInfo :=
  { isDir := f.isDir
    name := f.name
    size := f.size
    url := goURLStringPathOnly ("./" ++ (if f.isDir then f.name ++ "/" else f.name))
    modTime := f.modTime
    mode := f.mode }

/-- The loop of `directoryListing` (filemanager.go:136-163): the
`FileInfo`s in entry order, `dirCount`, `fileCount`, and `hasIndexFile`
(true iff some entry's raw name equals a recognized index page name).
`indexPages` stands for the external constant `staticfiles.IndexPages`. -/
def listEntries (indexPages : List String) :
    List RawFileInfo → List FileInfo × Nat × Nat × Bool
  | [] => ([], 0, 0, false)
  | f :: rest =>
    let r := listEntries indexPages rest
    (fileInfoOf f :: r.1,
     (if f.isDir then r.2.1 + 1 else r.2.1),
     (if f.isDir then r.2.2.1 else r.2.2.1 + 1),
     (indexPages.contains f.name || r.2.2.2))

/-- `directoryListing` (filemanager.go:129-173): assemble the `Listing`
(with Go zero values for `Sort`, `Order`, `ItemsLimitedTo`) and return
it together with `hasIndexFile`. -/
def directoryListing (indexPages : List String) (files : List RawFileInfo)
    (canGoUp : Bool) (urlPath : String) : Listing × Bool :=
  let r := listEntries indexPages files
  ({ name := pathBase urlPath
     path := urlPath
     canGoUp := canGoUp
     items := r.1
     numDirs := r.2.1
     numFiles := r.2.2.1
     sort := ""
     order := ""
     itemsLimitedTo := 0 }, r.2.2.2)

/-! ### Breadcrumbs (`Listing.BreadcrumbMap`, filemanager.go:82-106)

The Go function builds a `map[string]string`; we build the same map as
an association list, inserting with overwrite exactly where the loop
assigns. -/

/-- Assignment `m[k] = v` into a Go map, modelled on an association
list: overwrite the existing entry for `k`, else append. -/
def mapInsert (m : List (String × String)) (k v : String) :
    List (String × String) :=
  if m.any (fun p => p.1 = k) then
    m.map (fun p => if p.1 = k then (k, v) else p)
  else m ++ [(k, v)]

/-- Go `strings.Split(s, "/")`: the (always nonempty) list of runs
between `/` separators. -/
def splitOnSlash : List Char → List (List Char)
  | [] => [[]]
  | c :: rest =>
    match splitOnSlash rest with
    | [] => [[c]]
    | p :: ps => if c = '/' then [] :: p :: ps else (c :: p) :: ps

/-- Go `strings.Join(parts, "/")`. -/
def joinSlash : List (List Char) → List Char
  | [] => []
  | [p] => p
  | p :: ps => p ++ '/' :: joinSlash ps

/-- `Listing.BreadcrumbMap` (filemanager.go:82-106): empty path gives an
empty map; otherwise drop the trailing `/` if the last byte is one,
split on `/`, map index 0 with empty segment to the root entry
`"/" ↦ "/"`, and every other index `i` to
`strings.Join(parts[:i+1], "/") ↦ parts[i]`. -/
def BreadcrumbMap (path : String) : List (String × String) :=
  if path.data.length = 0 then []
  else
    let lpath :=
      if path.data.getLast? = some '/' then path.data.dropLast else path.data
    let parts := splitOnSlash lpath
    (List.range parts.length).foldl
      (fun result i =>
        let part := parts.getD i []
        if i = 0 ∧ part = [] then mapInsert result "/" "/"
        else mapInsert result (String.mk (joinSlash (parts.take (i + 1))))
          (String.mk part))
      []

/-- The breadcrumb algorithm as worded in the spec (§4.2): strip a
single trailing separator if present; split on the separator into
ordered segments; for index 0 with an empty segment emit the root entry
and continue; otherwise emit, for each index `i`, the cumulative prefix
formed by joining segments `0..i` mapped to segment `i`'s text; empty
input yields an empty mapping. -/
def breadcrumbSpec (path : String) : List (String × String) :=
  if path = "" then []
  else
    let stripped :=
      if path.data.getLast? = some '/' then path.data.dropLast else path.data
    let segments := splitOnSlash stripped
    (List.range segments.length).foldl
      (fun acc i =>
        let seg := segments.getD i []
        if i = 0 ∧ seg = [] then mapInsert acc "/" "/"
        else mapInsert acc (String.mk (joinSlash (segments.take (i + 1))))
          (String.mk seg))
      []

/-! ### Query validation and limiting (`ServeListing`, filemanager.go:283-295) -/

/-- The limiting step of `ServeListing` (filemanager.go:292-295): when
`limit > 0 && limit <= len(listing.Items)`, keep the first `limit` items
and record `ItemsLimitedTo = limit`; otherwise leave the listing
untouched. -/
def applyLimit (l : Listing) (limit : Int) : Listing :=
  if 0 < limit ∧ limit ≤ (l.items.length : Int) then
    { l with items := l.items.take limit.toNat, itemsLimitedTo := limit }
  else l

/-- The `sort`, `order` and `limit` query parameters of a request
(`none` = parameter absent). -/
structure SortQuery where
  sort : Option String
  order : Option String
  limit : Option String
deriving Repr, DecidableEq

/-- Decimal digits to a number, left to right. -/
def natOfDigitsAux (acc : Nat) : List Char → Nat
  | [] => acc
  | c :: rest => natOfDigitsAux (acc * 10 + (c.toNat - 48)) rest

/-- Modelled from the spec: the integer parsing applied to the `limit`
parameter by `handleSortOrder`, whose body is not under src/ (only its
call site, filemanager.go:285).  Per the spec, `limit` "must parse as a
non-negative integer; a negative or non-numeric value is also a client
error": an optional sign followed by at least one decimal digit parses,
anything else is non-numeric. -/
def parseGoInt (s : String) : Option Int :=
  match s.data with
  | [] => none
  | '-' :: rest =>
    if rest ≠ [] ∧ rest.all Char.isDigit then
      some (-(natOfDigitsAux 0 rest : Int))
    else none
  | '+' :: rest =>
    if rest ≠ [] ∧ rest.all Char.isDigit then
      some ((natOfDigitsAux 0 rest : Int))
    else none
  | l =>
    if l.all Char.isDigit then some ((natOfDigitsAux 0 l : Int)) else none

/-- Modelled from the spec: validation of the `sort` parameter inside
`handleSortOrder` (§4.4): `sort ∈ {name, size, time}`, an unrecognized
value is a client error; a missing value falls back to the default. -/
def validSort (defaultSort : String) : Option String → Except String String
  | none => .ok defaultSort
  | some s =>
    if s = "name" ∨ s = "size" ∨ s = "time" then .ok s
    else .error "invalid sort parameter"

/-- Modelled from the spec: validation of the `order` parameter inside
`handleSortOrder` (§4.4): `order ∈ {asc, desc}`, an unrecognized value
is a client error; a missing value falls back to the default. -/
def validOrder (defaultOrder : String) : Option String → Except String String
  | none => .ok defaultOrder
  | some o =>
    if o = "asc" ∨ o = "desc" then .ok o
    else .error "invalid order parameter"

/-- Modelled from the spec: validation of the `limit` parameter inside
`handleSortOrder` (§4.4): it must parse as a non-negative integer; a
negative or non-numeric value is a client error; missing means no
limit (`0`). -/
def validLimit : Option String → Except String Int
  | none => .ok 0
  | some ls =>
    match parseGoInt ls with
    | none => .error "limit is not numeric"
    | some n => if n < 0 then .error "limit is negative" else .ok n

/-- Modelled from the spec: `handleSortOrder` (called at
filemanager.go:285; its body is not under src/).  Per §4.4 of the spec,
validate `sort`, `order` and `limit`; missing parameters fall back to
the recorded per-scope preference if any, else to `sort=name`,
`order=asc`, no limit; the first invalid parameter is a client error. -/
def handleSortOrder (savedPrefs : Option (String × String)) (q : SortQuery) :
    Except String (String × String × Int) := do
  let defaults := savedPrefs.getD ("name", "asc")
  let sort ← validSort defaults.1 q.sort
  let order ← validOrder defaults.2 q.order
  let limit ← validLimit q.limit
  pure (sort, order, limit)

/-! ### Content negotiation and the request pipeline
(`ServeHTTP` filemanager.go:177-236, `ServeListing` filemanager.go:261-317) -/

/-- Go `strings.ToLower` on the ASCII range (the `Accept` values the
code compares against are ASCII). -/
def goToLower (s : String) : String :=
  String.mk (s.data.map (fun c =>
    if 65 ≤ c.toNat ∧ c.toNat ≤ 90 then Char.ofNat (c.toNat + 32) else c))

/-- Go `strings.Contains s pat`: some contiguous run of `s` equals
`pat`. -/
def containsSubstr (s pat : String) : Bool :=
  go s.data pat.data
where
  /-- Scan for a position where `pat` is a prefix. -/
  go : List Char → List Char → Bool
    | s, pat =>
      if pat.isPrefixOf s then true
      else match s with
        | [] => false
        | _ :: rest => go rest pat

/-- What the middleware does with a request: a body-less status return
`(code, err)`, deferral to `f.Next`, an `http.Redirect`, or a rendered
`200` with a content type and body. -/
inductive Outcome
  | status (code : Nat)
  | nextHandler
  | redirect (location : String) (code : Nat)
  | served (code : Nat) (contentType : String) (body : String)
deriving Repr, DecidableEq

/-- Error classification of a failed `Open`/`Stat`/`Readdir`, as the
code tests it: `os.IsPermission`, `os.IsExist`, or anything else. -/
inductive OpenErrorClass
  | permissionDenied
  | alreadyExists
  | otherErr
deriving Repr, DecidableEq

/-- The content-negotiation tail of `ServeListing`
(filemanager.go:297-316) with `formatAsJSON` (:339-348) and
`formatAsHTML` (:350-354) inlined: lower-case the comma-joined `Accept`
values; if they contain `application/json`, marshal `listing.Items`,
else execute the scope's template on the listing; either failure is a
500, success is a 200 with the matching content type.  `marshalJSON`
stands for `json.Marshal`, `render` for `bc.Template.Execute`. -/
def serveContent (accept : List String) (l : Listing)
    (marshalJSON : List FileInfo → Except Unit String)
    (render : Listing → Except Unit String) : Outcome :=
  let acceptHeader := goToLower (String.intercalate "," accept)
  if containsSubstr acceptHeader "application/json" then
    match marshalJSON l.items with
    | .error _ => .status 500
    | .ok body => .served 200 "application/json; charset=utf-8" body
  else
    match render l with
    | .error _ => .status 500
    | .ok body => .served 200 "text/html; charset=utf-8" body

/-- The host-supplied collaborators of one scope that `ServeListing`
uses: whether indexes are ignored, the recognized index page names,
`Listing.applySort` (defined outside src/, reorders `Items` only), the
JSON marshaller, the template renderer, and the saved per-scope
sort/order preference read by `handleSortOrder`. -/
structure ServeEnv where
  ignoreIndexes : Bool
  indexPages : List String
  applySort : List FileInfo → List FileInfo
  marshalJSON : List FileInfo → Except Unit String
  render : Listing → Except Unit String
  savedPrefs : Option (String × String)

/-- `ServeListing` (filemanager.go:261-317), with
`loadDirectoryContents` (:238-258) inlined: classify a `Readdir`
failure (403/410/500); defer when the directory has an index file and
indexes are not ignored; reject bad query parameters with 400; apply
sort and limit; negotiate content.  `readdir` is the outcome of
`requestedFilepath.Readdir(-1)` and `canGoUp` the scope-prefix check on
the parent path. -/
def serveListing (env : ServeEnv)
    (readdir : Except OpenErrorClass (List RawFileInfo))
    (canGoUp : Bool) (urlPath : String) (q : SortQuery)
    (accept : List String) : Outcome :=
  match readdir with
  | .error .permissionDenied => .status 403
  | .error .alreadyExists => .status 410
  | .error .otherErr => .status 500
  | .ok files =>
    let assembled := directoryListing env.indexPages files canGoUp urlPath
    if assembled.2 && !env.ignoreIndexes then .nextHandler
    else
      match handleSortOrder env.savedPrefs q with
      | .error _ => .status 400
      | .ok (sort, order, limit) =>
        let sorted := { assembled.1 with
          sort := sort, order := order,
          items := env.applySort assembled.1.items }
        serveContent accept (applyLimit sorted limit) env.marshalJSON env.render

/-- `FileManager.ServeHTTP` (filemanager.go:177-236): defer when no
`Config.PathScope` matches; classify `Open` failures (403 / 404 /
defer) and `Stat` failures (403 / 410 / defer); defer for
non-directories; serve only GET and HEAD, answer PROPFIND and OPTIONS
with 501 and defer other methods; redirect a directory path lacking a
trailing slash to `path + "/"` with 307; otherwise hand over to
`ServeListing`.  `openRes` is the outcome of `bc.Root.Open`, `statRes`
of `Stat` (carrying `info.IsDir()`), and the trailing arguments feed
the `ServeListing` model. -/
def serveHTTP (pathMatched : Bool)
    (openRes : Except OpenErrorClass Unit)
    (statRes : Except OpenErrorClass Bool)
    (method : String) (urlPath : String) (env : ServeEnv)
    (readdir : Except OpenErrorClass (List RawFileInfo))
    (canGoUp : Bool) (q : SortQuery) (accept : List String) : Outcome :=
  if !pathMatched then .nextHandler
  else
    match openRes with
    | .error .permissionDenied => .status 403
    | .error .alreadyExists => .status 404
    | .error .otherErr => .nextHandler
    | .ok _ =>
      match statRes with
      | .error .permissionDenied => .status 403
      | .error .alreadyExists => .status 410
      | .error .otherErr => .nextHandler
      | .ok isDir =>
        if !isDir then .nextHandler
        else if method = "GET" ∨ method = "HEAD" then
          if ¬(urlPath.data.getLast? = some '/') then
            .redirect (urlPath ++ "/") 307
          else serveListing env readdir canGoUp urlPath q accept
        else if method = "PROPFIND" ∨ method = "OPTIONS" then .status 501
        else .nextHandler

/-! ## Fixtures and helper lemmas -/

/-- A concrete five-entry directory (two directories, three files, one
name with a space) used to instantiate the theorems. -/
def exampleFiles : List RawFileInfo :=
  [⟨"a.txt", 10, false, 100, 420⟩,
   ⟨"B", 4096, true, 200, 493⟩,
   ⟨"c.txt", 5, false, 300, 420⟩,
   ⟨"d d", 7, false, 400, 420⟩,
   ⟨"e", 0, true, 500, 493⟩]

/-- The listing assembled from `exampleFiles`. -/
def exampleListing5 : Listing :=
  (directoryListing ["index.html"] exampleFiles false "/files/").1

/-- Unfolding the assembly loop: the items, the two counters and the
index flag of `listEntries`. -/
theorem listEntries_unfold (ip : List String) (fs : List RawFileInfo) :
    (listEntries ip fs).1 = fs.map fileInfoOf ∧
    (listEntries ip fs).2.1 = (fs.filter (fun f => f.isDir)).length ∧
    (listEntries ip fs).2.2.1 = (fs.filter (fun f => !f.isDir)).length ∧
    (listEntries ip fs).2.2.2 = fs.any (fun f => ip.contains f.name) := by
  induction fs with
  | nil => simp [listEntries]
  | cons f rest ih =>
    obtain ⟨i1, i2, i3, i4⟩ := ih
    cases h : f.isDir <;>
      simp [listEntries, i1, i2, i3, i4, h, List.filter_cons]

/-- Every entry is counted exactly once, as a directory or as a file. -/
theorem length_filter_isDir_add (fs : List RawFileInfo) :
    (fs.filter (fun f => f.isDir)).length +
      (fs.filter (fun f => !f.isDir)).length = fs.length := by
  induction fs with
  | nil => rfl
  | cons f rest ih => cases h : f.isDir <;> simp [List.filter_cons, h] <;> omega

/-! ## The claims -/

/-- C1: for every input sequence of raw directory entries, the
`Listing` produced by `directoryListing` has `NumDirs` equal to the
number of entries flagged as directories and `NumFiles` equal to the
number of non-directory entries, so `NumDirs + NumFiles` equals the
input entry count; and neither count is changed by any subsequent
limiting of the `Items` sequence. -/
theorem assembly_counts (indexPages : List String) (files : List RawFileInfo)
    (canGoUp : Bool) (urlPath : String) :
    ((directoryListing indexPages files canGoUp urlPath).1.numDirs =
      (files.filter (fun f => f.isDir)).length) ∧
    ((directoryListing indexPages files canGoUp urlPath).1.numFiles =
      (files.filter (fun f => !f.isDir)).length) ∧
    ((directoryListing indexPages files canGoUp urlPath).1.numDirs +
      (directoryListing indexPages files canGoUp urlPath).1.numFiles =
      files.length) ∧
    (∀ (l : Listing) (limit : Int),
      (applyLimit l limit).numDirs = l.numDirs ∧
      (applyLimit l limit).numFiles = l.numFiles) := by
  obtain ⟨-, i2, i3, -⟩ := listEntries_unfold indexPages files
  refine ⟨i2, i3, ?_, ?_⟩
  · rw [show (directoryListing indexPages files canGoUp urlPath).1.numDirs =
        (listEntries indexPages files).2.1 from rfl,
      show (directoryListing indexPages files canGoUp urlPath).1.numFiles =
        (listEntries indexPages files).2.2.1 from rfl, i2, i3]
    exact length_filter_isDir_add files
  · intro l limit
    rw [applyLimit]
    split <;> exact ⟨rfl, rfl⟩

/-- C2: for every `Listing` and every validated limit value: if
`limit > 0` and `limit` is at most the current item count, the `Items`
sequence is truncated to exactly its first `limit` items and
`ItemsLimitedTo` is set to `limit`; if `limit` exceeds the item count
(or `limit` is 0), `Items` is unchanged and `ItemsLimitedTo` remains as
it was (0 from assembly). -/
theorem applyLimit_spec (l : Listing) (limit : Int) :
    (0 < limit → limit ≤ (l.items.length : Int) →
      (applyLimit l limit).items = l.items.take limit.toNat ∧
      ((applyLimit l limit).items.length : Int) = limit ∧
      (applyLimit l limit).itemsLimitedTo = limit) ∧
    ((limit = 0 ∨ (l.items.length : Int) < limit) →
      applyLimit l limit = l ∧
      (applyLimit l limit).itemsLimitedTo = l.itemsLimitedTo) := by
  constructor
  · intro h1 h2
    rw [applyLimit, if_pos ⟨h1, h2⟩]
    refine ⟨rfl, ?_, rfl⟩
    simp only [List.length_take]
    omega
  · intro h
    rw [applyLimit, if_neg]
    · exact ⟨rfl, rfl⟩
    · rintro ⟨h1, h2⟩
      rcases h with h | h <;> omega

/-- C2 witness: on the five-item `exampleListing5`, `limit=2` truncates
to two items with `ItemsLimitedTo = 2`, while `limit=10` leaves it
untouched. -/
theorem applyLimit_spec_witness :
    ((applyLimit exampleListing5 2).items = exampleListing5.items.take 2 ∧
     ((applyLimit exampleListing5 2).items.length : Int) = 2 ∧
     (applyLimit exampleListing5 2).itemsLimitedTo = 2) ∧
    (applyLimit exampleListing5 10 = exampleListing5 ∧
     (applyLimit exampleListing5 10).itemsLimitedTo =
       exampleListing5.itemsLimitedTo) :=
  ⟨(applyLimit_spec exampleListing5 2).1 (by decide) (by decide),
   (applyLimit_spec exampleListing5 10).2 (Or.inr (by decide))⟩

/-- C10: applying a limit exactly equal to a positive item count leaves
the `Items` sequence unchanged yet sets `ItemsLimitedTo` to that count,
a nonzero value, even though nothing was truncated. -/
theorem applyLimit_full_count (l : Listing) (h : 0 < l.items.length) :
    (applyLimit l (l.items.length : Int)).items = l.items ∧
    (applyLimit l (l.items.length : Int)).itemsLimitedTo =
      (l.items.length : Int) ∧
    (applyLimit l (l.items.length : Int)).itemsLimitedTo ≠ 0 := by
  have hc : 0 < (l.items.length : Int) ∧
      (l.items.length : Int) ≤ (l.items.length : Int) :=
    ⟨by exact_mod_cast h, le_refl _⟩
  rw [applyLimit, if_pos hc]
  refine ⟨?_, rfl, ?_⟩
  · simp
  · intro h0
    have h0' : (l.items.length : Int) = 0 := h0
    omega

/-- C10 witness: on the five-item `exampleListing5`, `limit=5` keeps
all five items and records `ItemsLimitedTo = 5 ≠ 0`. -/
theorem applyLimit_full_count_witness :
    0 < exampleListing5.items.length ∧
    ((applyLimit exampleListing5 (exampleListing5.items.length : Int)).items =
       exampleListing5.items ∧
     (applyLimit exampleListing5
         (exampleListing5.items.length : Int)).itemsLimitedTo =
       (exampleListing5.items.length : Int) ∧
     (applyLimit exampleListing5
         (exampleListing5.items.length : Int)).itemsLimitedTo ≠ 0) :=
  ⟨by decide, applyLimit_full_count exampleListing5 (by decide)⟩

/-- C3: for every path string, the breadcrumb map is computed by
stripping at most one trailing separator, splitting on the separator,
emitting the synthetic root entry for an empty leading segment, and
mapping each cumulative prefix of segments `0..i` to segment `i`'s
text (the algorithm `breadcrumbSpec`); in particular `"/a/b/c/"` yields
exactly the keys `/`, `/a`, `/a/b`, `/a/b/c` mapped to `/`, `a`, `b`,
`c`, and the empty path yields an empty map. -/
theorem breadcrumb_map_spec :
    (∀ path, BreadcrumbMap path = breadcrumbSpec path) ∧
    BreadcrumbMap "/a/b/c/" =
      [("/", "/"), ("/a", "a"), ("/a/b", "b"), ("/a/b/c", "c")] ∧
    BreadcrumbMap "" = [] := by
  refine ⟨?_, by decide, by decide⟩
  intro path
  by_cases h : path = ""
  · subst h; rfl
  · have hlen : ¬path.data.length = 0 := by
      intro hl
      apply h
      cases path with
      | mk data =>
        cases data with
        | nil => rfl
        | cons c cs => simp at hl
    unfold BreadcrumbMap breadcrumbSpec
    rw [if_neg hlen, if_neg h]

/-- C4 helper: a supplied `sort` outside `{name, size, time}`, a
supplied `order` outside `{asc, desc}`, or a supplied `limit` that is
non-numeric or negative makes `handleSortOrder` return an error. -/
theorem handleSortOrder_rejects (sp : Option (String × String)) (q : SortQuery)
    (hbad : (∃ s, q.sort = some s ∧ ¬(s = "name" ∨ s = "size" ∨ s = "time")) ∨
            (∃ o, q.order = some o ∧ ¬(o = "asc" ∨ o = "desc")) ∨
            (∃ ls, q.limit = some ls ∧
              (parseGoInt ls = none ∨ ∃ n, parseGoInt ls = some n ∧ n < 0))) :
    ∃ msg, handleSortOrder sp q = Except.error msg := by
  rcases hbad with ⟨s, hs, hval⟩ | ⟨o, ho, hval⟩ | ⟨ls, hl, hval⟩
  · exact ⟨_, by simp [handleSortOrder, hs, validSort, hval]; rfl⟩
  · cases hsort : validSort (sp.getD ("name", "asc")).1 q.sort with
    | error m => exact ⟨m, by simp [handleSortOrder, hsort]; rfl⟩
    | ok s' =>
      exact ⟨_, by simp [handleSortOrder, hsort, ho, validOrder, hval]; rfl⟩
  · cases hsort : validSort (sp.getD ("name", "asc")).1 q.sort with
    | error m => exact ⟨m, by simp [handleSortOrder, hsort]; rfl⟩
    | ok s' =>
      cases horder : validOrder (sp.getD ("name", "asc")).2 q.order with
      | error m => exact ⟨m, by simp [handleSortOrder, hsort, horder]; rfl⟩
      | ok o' =>
        rcases hval with hnone | ⟨n, hn, hneg⟩
        · exact ⟨_, by
            simp [handleSortOrder, hsort, horder, hl, validLimit, hnone]; rfl⟩
        · exact ⟨_, by
            simp [handleSortOrder, hsort, horder, hl, validLimit, hn, hneg]; rfl⟩

/-- C4: for every in-scope directory request that reaches parameter
handling (the directory was read and has no index file blocking it), a
`sort` value outside `{name, size, time}`, an `order` value outside
`{asc, desc}`, or a `limit` value that is negative or not numeric makes
`handleSortOrder` fail — no default is applied in its place — and
`ServeListing` answers 400. -/
theorem invalid_query_rejected (env : ServeEnv)
    (files : List RawFileInfo) (canGoUp : Bool) (urlPath : String)
    (q : SortQuery) (accept : List String)
    (hreach : (directoryListing env.indexPages files canGoUp urlPath).2 = false ∨
              env.ignoreIndexes = true)
    (hbad : (∃ s, q.sort = some s ∧ ¬(s = "name" ∨ s = "size" ∨ s = "time")) ∨
            (∃ o, q.order = some o ∧ ¬(o = "asc" ∨ o = "desc")) ∨
            (∃ ls, q.limit = some ls ∧
              (parseGoInt ls = none ∨ ∃ n, parseGoInt ls = some n ∧ n < 0))) :
    (∃ msg, handleSortOrder env.savedPrefs q = Except.error msg) ∧
    serveListing env (Except.ok files) canGoUp urlPath q accept =
      Outcome.status 400 := by
  obtain ⟨msg, hmsg⟩ := handleSortOrder_rejects env.savedPrefs q hbad
  have hidx : ((directoryListing env.indexPages files canGoUp urlPath).2 &&
      !env.ignoreIndexes) = false := by
    rcases hreach with h | h <;> simp [h]
  refine ⟨⟨msg, hmsg⟩, ?_⟩
  simp [serveListing, hidx, hmsg]

/-- The collaborators used to instantiate the request-level theorems:
no index ignoring, `index.html` recognized, identity sort, and
always-succeeding marshaller and renderer. -/
def exampleEnv : ServeEnv :=
  { ignoreIndexes := false
    indexPages := ["index.html"]
    applySort := id
    marshalJSON := fun _ => Except.ok "[]"
    render := fun _ => Except.ok "<html>"
    savedPrefs := none }

/-- C4 witness: `sort=bogus` on the example directory is answered with
400. -/
theorem invalid_query_rejected_witness :
    (∃ msg, handleSortOrder exampleEnv.savedPrefs ⟨some "bogus", none, none⟩ =
      Except.error msg) ∧
    serveListing exampleEnv (Except.ok exampleFiles) false "/files/"
      ⟨some "bogus", none, none⟩ [] = Outcome.status 400 :=
  invalid_query_rejected exampleEnv exampleFiles false "/files/"
    ⟨some "bogus", none, none⟩ []
    (Or.inl (by decide)) (Or.inl ⟨"bogus", rfl, by decide⟩)

/-- C5: for every in-scope request whose target fails to open, a
permission-denied error yields 403, an "already exists" class error
yields 404, and every other open failure defers the request to the next
handler rather than answering with an error. -/
theorem open_failure_dispatch (statRes : Except OpenErrorClass Bool)
    (method urlPath : String) (env : ServeEnv)
    (readdir : Except OpenErrorClass (List RawFileInfo))
    (canGoUp : Bool) (q : SortQuery) (accept : List String) :
    serveHTTP true (Except.error OpenErrorClass.permissionDenied) statRes
        method urlPath env readdir canGoUp q accept = Outcome.status 403 ∧
    serveHTTP true (Except.error OpenErrorClass.alreadyExists) statRes
        method urlPath env readdir canGoUp q accept = Outcome.status 404 ∧
    serveHTTP true (Except.error OpenErrorClass.otherErr) statRes
        method urlPath env readdir canGoUp q accept = Outcome.nextHandler :=
  ⟨rfl, rfl, rfl⟩

/-- C6: when the joined `Accept` values contain the case-insensitive
substring `application/json`, the response body is the JSON
serialization of only the `Items` sequence with a JSON content type;
otherwise the full `Listing` is rendered through the scope's template
with an HTML content type; either failure yields a 500. -/
theorem content_negotiation (accept : List String) (l : Listing)
    (marshalJSON : List FileInfo → Except Unit String)
    (render : Listing → Except Unit String) :
    (containsSubstr (goToLower (String.intercalate "," accept))
        "application/json" = true →
      (∀ body, marshalJSON l.items = Except.ok body →
        serveContent accept l marshalJSON render =
          Outcome.served 200 "application/json; charset=utf-8" body) ∧
      (∀ e, marshalJSON l.items = Except.error e →
        serveContent accept l marshalJSON render = Outcome.status 500)) ∧
    (containsSubstr (goToLower (String.intercalate "," accept))
        "application/json" = false →
      (∀ body, render l = Except.ok body →
        serveContent accept l marshalJSON render =
          Outcome.served 200 "text/html; charset=utf-8" body) ∧
      (∀ e, render l = Except.error e →
        serveContent accept l marshalJSON render = Outcome.status 500)) := by
  refine ⟨fun hc => ⟨fun body hb => ?_, fun e he => ?_⟩,
          fun hc => ⟨fun body hb => ?_, fun e he => ?_⟩⟩
  · simp [serveContent, hc, hb]
  · simp [serveContent, hc, he]
  · simp [serveContent, hc, hb]
  · simp [serveContent, hc, he]

/-- C6 witness: a JSON `Accept` header (in any letter case) gets the
marshalled items, any other gets the rendered template. -/
theorem content_negotiation_witness :
    serveContent ["Application/JSON"] exampleListing5
        (fun _ => Except.ok "[]") (fun _ => Except.ok "<html>") =
      Outcome.served 200 "application/json; charset=utf-8" "[]" ∧
    serveContent ["text/html"] exampleListing5
        (fun _ => Except.ok "[]") (fun _ => Except.ok "<html>") =
      Outcome.served 200 "text/html; charset=utf-8" "<html>" :=
  ⟨((content_negotiation ["Application/JSON"] exampleListing5
      (fun _ => Except.ok "[]") (fun _ => Except.ok "<html>")).1
      (by decide)).1 "[]" rfl,
   ((content_negotiation ["text/html"] exampleListing5
      (fun _ => Except.ok "[]") (fun _ => Except.ok "<html>")).2
      (by decide)).1 "<html>" rfl⟩

/-- C7: a GET or HEAD request that matches a scope and opens as a
directory but whose URL path does not end in `/` is answered with a 307
redirect to the path with `/` appended, and the outcome is independent
of every listing input — no enumeration, sorting, limiting or rendering
takes place. -/
theorem missing_trailing_slash_redirect (method urlPath : String)
    (env : ServeEnv) (readdir : Except OpenErrorClass (List RawFileInfo))
    (canGoUp : Bool) (q : SortQuery) (accept : List String)
    (hm : method = "GET" ∨ method = "HEAD")
    (hslash : ¬urlPath.data.getLast? = some '/') :
    serveHTTP true (Except.ok ()) (Except.ok true) method urlPath env
        readdir canGoUp q accept = Outcome.redirect (urlPath ++ "/") 307 ∧
    ∀ (env' : ServeEnv) (readdir' : Except OpenErrorClass (List RawFileInfo))
      (canGoUp' : Bool) (q' : SortQuery) (accept' : List String),
      serveHTTP true (Except.ok ()) (Except.ok true) method urlPath env'
          readdir' canGoUp' q' accept' =
        serveHTTP true (Except.ok ()) (Except.ok true) method urlPath env
          readdir canGoUp q accept := by
  have hred : ∀ (env' : ServeEnv)
      (readdir' : Except OpenErrorClass (List RawFileInfo))
      (canGoUp' : Bool) (q' : SortQuery) (accept' : List String),
      serveHTTP true (Except.ok ()) (Except.ok true) method urlPath env'
          readdir' canGoUp' q' accept' =
        Outcome.redirect (urlPath ++ "/") 307 := by
    intro env' readdir' canGoUp' q' accept'
    rcases hm with h | h <;> subst h <;> simp [serveHTTP, hslash]
  exact ⟨hred env readdir canGoUp q accept,
    fun env' readdir' canGoUp' q' accept' =>
      (hred env' readdir' canGoUp' q' accept').trans
        (hred env readdir canGoUp q accept).symm⟩

/-- C7 witness: `GET /files` on an in-scope directory redirects to
`/files/`. -/
theorem missing_trailing_slash_redirect_witness :
    serveHTTP true (Except.ok ()) (Except.ok true) "GET" "/files"
        exampleEnv (Except.ok exampleFiles) false ⟨none, none, none⟩ [] =
      Outcome.redirect ("/files" ++ "/") 307 :=
  (missing_trailing_slash_redirect "GET" "/files" exampleEnv
    (Except.ok exampleFiles) false ⟨none, none, none⟩ []
    (Or.inl rfl) (by decide)).1

/-- C8: `hasIndexFile` is true iff some raw entry's name equals a name
in the recognized index-filename set; and when it is true and
index-ignoring is not enabled, `ServeListing` defers to the next
handler instead of serving a listing. -/
theorem index_file_detection (env : ServeEnv) (files : List RawFileInfo)
    (canGoUp : Bool) (urlPath : String) (q : SortQuery)
    (accept : List String) :
    ((directoryListing env.indexPages files canGoUp urlPath).2 = true ↔
      ∃ f ∈ files, f.name ∈ env.indexPages) ∧
    ((directoryListing env.indexPages files canGoUp urlPath).2 = true →
      env.ignoreIndexes = false →
      serveListing env (Except.ok files) canGoUp urlPath q accept =
        Outcome.nextHandler) := by
  constructor
  · rw [show (directoryListing env.indexPages files canGoUp urlPath).2 =
        (listEntries env.indexPages files).2.2.2 from rfl,
      (listEntries_unfold env.indexPages files).2.2.2]
    simp [List.any_eq_true, List.elem_iff]
  · intro hidx hign
    simp [serveListing, hidx, hign]

/-- A copy of the example directory that also contains a file named
`index.html`. -/
def exampleFilesWithIndex : List RawFileInfo :=
  ⟨"index.html", 3, false, 50, 420⟩ :: exampleFiles

/-- C8 witness: a directory containing `index.html` is detected and,
with index-ignoring off, the request is deferred. -/
theorem index_file_detection_witness :
    (directoryListing exampleEnv.indexPages exampleFilesWithIndex false
        "/files/").2 = true ∧
    serveListing exampleEnv (Except.ok exampleFilesWithIndex) false
        "/files/" ⟨none, none, none⟩ [] = Outcome.nextHandler :=
  ⟨by decide,
   (index_file_detection exampleEnv exampleFilesWithIndex false "/files/"
     ⟨none, none, none⟩ []).2 (by decide) rfl⟩

/-- Paths that already begin with `./` never get another `./` prefix
from `URL.String()`: their first segment is `.`, colon-free. -/
theorem goURLString_dotSlash (s : String) :
    goURLStringPathOnly ("./" ++ s) = escapePath ("./" ++ s) := by
  have hesc : escapeBytesChars (utf8Bytes ("./" ++ s)) =
      '.' :: '/' :: escapeBytesChars (utf8Bytes s) := rfl
  unfold goURLStringPathOnly escapePath
  rw [hesc]
  simp [colonFirstSegment]

/-- C9: the `FileInfo` produced for a directory entry stores the raw
name without a trailing `/` while its URL is the percent-encoded form
of `./` + name + `/`; for a non-directory entry the URL is the
percent-encoded form of `./` + name with no trailing slash. -/
theorem fileInfo_name_url (f : RawFileInfo) :
    (fileInfoOf f).name = f.name ∧
    (f.isDir = true →
      (fileInfoOf f).url = escapePath ("./" ++ f.name ++ "/")) ∧
    (f.isDir = false →
      (fileInfoOf f).url = escapePath ("./" ++ f.name)) := by
  refine ⟨rfl, fun h => ?_, fun h => ?_⟩
  · show goURLStringPathOnly ("./" ++ (if f.isDir then f.name ++ "/" else f.name)) = _
    rw [h, if_pos rfl, ← String.append_assoc]
    exact goURLString_dotSlash (f.name ++ "/")
  · show goURLStringPathOnly ("./" ++ (if f.isDir then f.name ++ "/" else f.name)) = _
    rw [h]
    simpa using goURLString_dotSlash f.name

/-- C9 witness: a directory entry `B` gets URL `./B/` while keeping
name `B`; a file named `a:b c` gets the escaped URL of `./a:b c`. -/
theorem fileInfo_name_url_witness :
    ((fileInfoOf ⟨"B", 4096, true, 200, 493⟩).name = "B" ∧
     (fileInfoOf ⟨"B", 4096, true, 200, 493⟩).url =
       escapePath ("./" ++ "B" ++ "/")) ∧
    (fileInfoOf ⟨"a:b c", 10, false, 100, 420⟩).url =
      escapePath ("./" ++ "a:b c") :=
  ⟨⟨(fileInfo_name_url ⟨"B", 4096, true, 200, 493⟩).1,
    (fileInfo_name_url ⟨"B", 4096, true, 200, 493⟩).2.1 rfl⟩,
   (fileInfo_name_url ⟨"a:b c", 10, false, 100, 420⟩).2.2 rfl⟩

end FileManagerSpec
